import Mathlib

/-!
Verification of the pitch-analysis core of the `tune` repository
(`analyzePitch` and `autocorrelationPitchDetection` in
`src/utils/analyzePitch.ts`).

Embedding conventions:
* JavaScript `number` sample/correlation values are modelled as exact
  rationals (`ℚ`); the claims under study are structural (guards, loop
  counts, peak location, interpolation algebra) and do not depend on
  Float32 rounding.
* The one place where the source can produce IEEE-754 special values —
  the parabolic-interpolation division, whose denominator can be zero —
  is modelled with an explicit value type `JsVal` carrying `+Infinity`,
  `-Infinity` and `NaN`, with JavaScript division/addition/comparison
  semantics.
* `Math.sqrt` appears only in the comparison `sqrt(sumSq/len) < 0.01`;
  since both sides are nonnegative this is equivalent to
  `sumSq/len < 0.01 ^ 2`, which is how the silence gate is embedded
  (the equivalence is proved over `ℝ` in `sqrt_lt_hundredth_iff`).
* `Math.cos`, `Math.PI` (used only inside the Hann taper) and the
  Tone.js note-naming collaborators `Frequency(f).toMidi()` /
  `Frequency(m, 'midi').toNote()` are external to the repository; they
  are passed as an explicit parameter record `Collab`.  A thrown
  exception from the naming collaborators is modelled as `none`.
* The `for` loop of `analyzePitch` is modelled by a fuel-indexed
  recursion; the wrapper `analyzePitch` supplies fuel `length + 1`,
  which always exceeds the iteration count (the loop advances by 1024
  each round), so the model is exact.
-/

namespace Tune

/-- JavaScript number results restricted to what the source can produce:
an exact rational, or one of the IEEE-754 special values. -/
inductive JsVal where
  | num (q : ℚ)
  | posInf
  | negInf
  | nan
deriving DecidableEq

/-- JavaScript division `a / b` of two finite numbers: ordinary division
when `b ≠ 0`, otherwise `±Infinity` or `NaN` according to the sign of
the numerator. -/
def jsDiv (a b : ℚ) : JsVal :=
  if b = 0 then (if 0 < a then .posInf else if a < 0 then .negInf else .nan)
  else .num (a / b)

/-- JavaScript addition on possibly-special values (used for
`peakIndex += offset` in the source). -/
def jsAdd : JsVal → JsVal → JsVal
  | .num a, .num b => .num (a + b)
  | .num _, .posInf => .posInf
  | .posInf, .num _ => .posInf
  | .num _, .negInf => .negInf
  | .negInf, .num _ => .negInf
  | .posInf, .posInf => .posInf
  | .negInf, .negInf => .negInf
  | .posInf, .negInf => .nan
  | .negInf, .posInf => .nan
  | .nan, _ => .nan
  | _, .nan => .nan

/-- Line 107 of the source: `peakIndex > 0 ? sampleRate / peakIndex : null`.
`+Infinity > 0` is true in JavaScript and `sampleRate / Infinity = 0`,
so an infinite refined lag yields the pitch value `0`; `NaN > 0` and
`-Infinity > 0` are false, yielding `null`. -/
def finishPitch (sampleRate : ℚ) : JsVal → Option ℚ
  | .num q => if 0 < q then some (sampleRate / q) else none
  | .posInf => some 0
  | .negInf => none
  | .nan => none

/-- Lines 67-70: `max = Math.max(max, Math.abs(buf[i]))` starting from 0. -/
def maxAbs (buf : List ℚ) : ℚ :=
  buf.foldl (fun m x => max m |x|) 0

/-- Lines 79-83: one autocorrelation entry,
`sum of normalized[i] * normalized[i + lag]` for `i < length - lag`. -/
def corrAt (nb : List ℚ) (lag : ℕ) : ℚ :=
  (List.zipWith (fun a b => a * b) nb (nb.drop lag)).sum

/-- Lines 77-84: the correlation profile, one entry per lag
`0 … length / 2 - 1`. -/
def corrProfile (nb : List ℚ) : List ℚ :=
  (List.range (nb.length / 2)).map (corrAt nb)

/-- Lines 92-95 as a fold step.  The accumulator is
`(peakIndex, maxCorrelation)` with `none` standing for the initial
`-Infinity`, against which any finite value compares greater. -/
def peakScanStep (corr : List ℚ) (acc : ℕ × Option ℚ) (i : ℕ) : ℕ × Option ℚ :=
  match acc with
  | (_, none) => (i, some (corr.getD i 0))
  | (p, some m) => if m < corr.getD i 0 then (i, some (corr.getD i 0)) else (p, some m)

/-- Lines 87-96: the linear scan for the maximal correlation over lags
`minLag … length - 1`, starting from `peakIndex = 0`,
`maxCorrelation = -Infinity`. -/
def findPeakIndex (corr : List ℚ) (minLag : ℕ) : ℕ :=
  ((List.range' minLag (corr.length - minLag)).foldl (peakScanStep corr) (0, none)).1

/-- Lines 99-105: parabolic interpolation at an interior peak,
`offset = (alpha - gamma) / (2 * (alpha - 2*beta + gamma))`,
`peakIndex += offset`, with no guard on the denominator. -/
def refinePeak (corr : List ℚ) (p : ℕ) : JsVal :=
  if 0 < p ∧ p < corr.length - 1 then
    let alpha := corr.getD (p - 1) 0
    let beta := corr.getD p 0
    let gamma := corr.getD (p + 1) 0
    jsAdd (.num p) (jsDiv (alpha - gamma) (2 * (alpha - 2 * beta + gamma)))
  else .num p

/-- Lines 64-108: the autocorrelation pitch estimator.  Returns `none`
for the source's `null`. -/
def autocorrelationPitchDetection (buf : List ℚ) (sampleRate : ℚ) : Option ℚ :=
  let m := maxAbs buf
  if m = 0 then none
  else
    let normalized := buf.map (fun x => x / m)
    let correlation := corrProfile normalized
    let minLag := (⌊sampleRate / 1000⌋).toNat
    let peakIndex := findPeakIndex correlation minLag
    finishPitch sampleRate (refinePeak correlation peakIndex)

/-! ## The pipeline `analyzePitch` (lines 5-62 of the source) -/

/-- Line 16: `const windowSize = 4096`. -/
def windowSize : ℕ := 4096

/-- Line 17: `const stepSize = 1024`. -/
def stepSize : ℕ := 1024

/-- External collaborators of the pipeline, out of scope of the
repository: `Math.cos` and `Math.PI` (transcendental, hence taken as
parameters rather than rational formulas) and the Tone.js note-naming
services, where `none` models a thrown exception (caught at line 52). -/
structure Collab where
  jscos : ℚ → ℚ
  jspi : ℚ
  toMidi : ℚ → Option ℤ
  toNote : ℤ → Option String

/-- The observable state of one `analyzePitch` run: the accumulated
`notes` array, the `processedWindows` counter, the values passed to the
progress callback (in order), the number of `console.warn` calls, and —
as ghost instrumentation — the offset `i` of each window iteration. -/
structure RunState where
  notes : List String
  processedWindows : ℕ
  events : List JsVal
  warnings : ℕ
  offsets : List ℕ
deriving DecidableEq

/-- The state at the start of a run (lines 13, 19). -/
def initialState : RunState := ⟨[], 0, [], 0, []⟩

/-- Line 18: `Math.floor((channelData.length - windowSize) / stepSize)`
(negative when the buffer is shorter than one window). -/
def totalWindows (len : ℕ) : ℤ :=
  ⌊(((len : ℤ) - (windowSize : ℤ) : ℚ)) / (stepSize : ℚ)⌋

/-- Line 35: `Math.sqrt(segment.reduce((sum, x) => sum + x*x, 0) / segment.length)`
without the outer square root: the source only compares the RMS against
`0.01`, and `sqrt m < 0.01 ↔ m < 0.01 ^ 2` (both sides nonnegative; see
`sqrt_lt_hundredth_iff`), so the gate is embedded on the squared value. -/
def rmsSq (segment : List ℚ) : ℚ :=
  segment.foldl (fun sum x => sum + x * x) 0 / (segment.length : ℚ)

/-- Lines 22-29: the Hann taper,
`windowed[i] = buffer[i] * (0.5 * (1 - Math.cos((2 * Math.PI * i) / (buffer.length - 1))))`. -/
def applyWindowFunction (c : Collab) (buffer : List ℚ) : List ℚ :=
  buffer.mapIdx (fun i x =>
    x * (1 / 2 * (1 - c.jscos (2 * c.jspi * (i : ℚ) / ((buffer.length : ℚ) - 1)))))

/-- Lines 37-38 and 57-58 (identical in both branches of the loop body):
`processedWindows++; if (progressCallback) progressCallback(processedWindows / totalWindows)`,
together with the ghost record of the window offset `i`. -/
def recordProgress (totalW : ℤ) (i : ℕ) (st : RunState) : RunState :=
  { st with
    processedWindows := st.processedWindows + 1
    events := st.events ++ [jsDiv ((st.processedWindows + 1 : ℕ) : ℚ) ((totalW : ℤ) : ℚ)]
    offsets := st.offsets ++ [i] }

/-- Lines 45-55: the acceptance test and note conversion.  The JavaScript
guard `pitch && pitch > 60 && pitch < 1000` is truthiness (`null` and
`0` are falsy) followed by the two range bounds; the `try`/`catch`
around the two `Frequency` calls turns a thrown exception (`none` from
the collaborator) into a `console.warn` and no appended note. -/
def quantizePitch (c : Collab) (pitch : Option ℚ) (st : RunState) : RunState :=
  match pitch with
  | none => st
  | some p =>
    if ¬p = 0 ∧ 60 < p ∧ p < 1000 then
      match c.toMidi p with
      | none => { st with warnings := st.warnings + 1 }
      | some midi =>
        if 48 ≤ midi ∧ midi ≤ 84 then
          match c.toNote midi with
          | none => { st with warnings := st.warnings + 1 }
          | some note => { st with notes := st.notes ++ [note] }
        else st
    else st

/-- Lines 32-58: one iteration of the analysis loop on the window
starting at offset `i`: the silence gate on the raw segment, then taper,
pitch estimation and quantization, and in every case one progress
report. -/
def processWindow (c : Collab) (sampleRate : ℚ) (totalW : ℤ) (i : ℕ)
    (segment : List ℚ) (st : RunState) : RunState :=
  if rmsSq segment < 1 / 10000 then
    recordProgress totalW i st
  else
    recordProgress totalW i
      (quantizePitch c
        (autocorrelationPitchDetection (applyWindowFunction c segment) sampleRate) st)

/-- Line 32: `channelData.slice(i, i + windowSize)`. -/
def windowAt (channelData : List ℚ) (i : ℕ) : List ℚ :=
  (channelData.drop i).take windowSize

/-- Lines 31-59: `for (let i = 0; i < channelData.length - windowSize; i += stepSize)`,
modelled with a fuel argument (the loop advances `i` by `stepSize` every
round, so any fuel of at least `⌈length / stepSize⌉ + 1` rounds is
exact; `analyzePitch` passes `length + 1`). -/
def analyzeLoop (c : Collab) (channelData : List ℚ) (sampleRate : ℚ) (totalW : ℤ) :
    ℕ → ℕ → RunState → RunState
  | 0, _, st => st
  | fuel + 1, i, st =>
    if (i : ℤ) < (channelData.length : ℤ) - (windowSize : ℤ) then
      analyzeLoop c channelData sampleRate totalW fuel (i + stepSize)
        (processWindow c sampleRate totalW i (windowAt channelData i) st)
    else st

/-- Lines 5-62: one full run of the pipeline, from the decoded channel
data and sample rate (the async decode of the input blob is outside the
core).  The returned `RunState` carries the `notes` array the source
returns plus the observable progress/warning record. -/
def analyzePitch (c : Collab) (channelData : List ℚ) (sampleRate : ℚ) : RunState :=
  analyzeLoop c channelData sampleRate (totalWindows channelData.length)
    (channelData.length + 1) 0 initialState

/-- A degenerate collaborator record used for concrete instances. -/
def stubCollab : Collab :=
  ⟨fun _ => 0, 0, fun _ => none, fun _ => none⟩

/-- A collaborator record whose taper multiplier is constantly 1
(cosine constantly `-1`) and whose naming service maps every frequency
to MIDI 60 / note C4; used for concrete instances. -/
def collabC4 : Collab :=
  ⟨fun _ => -1, 0, fun _ => some 60, fun _ => some ("C4")⟩

/-- The number of loop iterations still to run when the loop variable
stands at `i`: the count of `k` with `i + stepSize * k < len - windowSize`,
in closed (truncated ℕ) form. -/
def pendingWindows (len i : ℕ) : ℕ :=
  (len - windowSize - i + (stepSize - 1)) / stepSize

/-! ## Helper lemmas -/

/-- Justification of the squared silence-gate embedding: for any real
radicand, `sqrt v < 0.01` holds exactly when `v < 0.01 ^ 2`. -/
theorem sqrt_lt_hundredth_iff (v : ℝ) : Real.sqrt v < 1 / 100 ↔ v < (1 / 100) ^ 2 := by
  constructor
  · intro h
    by_contra hv
    push_neg at hv
    have h1 : (1 : ℝ) / 100 ≤ Real.sqrt v := by
      have := Real.sqrt_le_sqrt hv
      calc (1 : ℝ) / 100 = Real.sqrt ((1 / 100) ^ 2) := by
            rw [Real.sqrt_sq (by norm_num)]
        _ ≤ Real.sqrt v := this
    linarith
  · intro h
    have hlt : Real.sqrt v < Real.sqrt ((1 / 100) ^ 2) := by
      rcases le_or_lt v 0 with hv | hv
      · have : Real.sqrt v = 0 := Real.sqrt_eq_zero_of_nonpos hv
        rw [this, Real.sqrt_sq (by norm_num)]; norm_num
      · exact Real.sqrt_lt_sqrt (le_of_lt hv) h
    rwa [Real.sqrt_sq (by norm_num)] at hlt

/-- The quantizer `quantizePitch` never touches the progress counter, the recorded
callback values, or the recorded offsets. -/
theorem quantizePitch_fields (c : Collab) (pitch : Option ℚ) (st : RunState) :
    (quantizePitch c pitch st).processedWindows = st.processedWindows ∧
    (quantizePitch c pitch st).events = st.events ∧
    (quantizePitch c pitch st).offsets = st.offsets := by
  rcases pitch with _ | p
  · simp [quantizePitch]
  · by_cases h : ¬p = 0 ∧ 60 < p ∧ p < 1000
    · rcases hm : c.toMidi p with _ | m
      · simp [quantizePitch, h, hm]
      · by_cases hr : 48 ≤ m ∧ m ≤ 84
        · rcases hn : c.toNote m with _ | s <;> simp [quantizePitch, h, hm, hr, hn]
        · simp [quantizePitch, h, hm, hr]
    · simp [quantizePitch, h]

/-- Either `quantizePitch` leaves the note list unchanged, or the
estimate passed the truthiness-and-range guard, both naming calls
succeeded with an in-range MIDI number, and exactly that note was
appended. -/
theorem quantizePitch_notes (c : Collab) (pitch : Option ℚ) (st : RunState) :
    (quantizePitch c pitch st).notes = st.notes ∨
    ∃ p m s, pitch = some p ∧ ¬p = 0 ∧ 60 < p ∧ p < 1000 ∧
      c.toMidi p = some m ∧ 48 ≤ m ∧ m ≤ 84 ∧ c.toNote m = some s ∧
      (quantizePitch c pitch st).notes = st.notes ++ [s] := by
  rcases pitch with _ | p
  · exact Or.inl (by simp [quantizePitch])
  · by_cases h : ¬p = 0 ∧ 60 < p ∧ p < 1000
    · rcases hm : c.toMidi p with _ | m
      · exact Or.inl (by simp [quantizePitch, h, hm])
      · by_cases hr : 48 ≤ m ∧ m ≤ 84
        · rcases hn : c.toNote m with _ | s
          · exact Or.inl (by simp [quantizePitch, h, hm, hr, hn])
          · exact Or.inr ⟨p, m, s, rfl, h.1, h.2.1, h.2.2, hm, hr.1, hr.2, hn,
              by simp [quantizePitch, h, hm, hr, hn]⟩
        · exact Or.inl (by simp [quantizePitch, h, hm, hr])
    · exact Or.inl (by simp [quantizePitch, h])

/-- When the guard passes, the naming succeeds and the MIDI number is in
range, the note is appended. -/
theorem quantizePitch_emits (c : Collab) (p : ℚ) (m : ℤ) (s : String) (st : RunState)
    (h : ¬p = 0 ∧ 60 < p ∧ p < 1000) (hm : c.toMidi p = some m)
    (hr : 48 ≤ m ∧ m ≤ 84) (hn : c.toNote m = some s) :
    (quantizePitch c (some p) st).notes = st.notes ++ [s] := by
  simp [quantizePitch, h, hm, hr, hn]

/-- A naming-service failure (a thrown exception from either Tone.js
call) skips the note and records one warning. -/
theorem quantizePitch_warns (c : Collab) (p : ℚ) (st : RunState)
    (h : ¬p = 0 ∧ 60 < p ∧ p < 1000) :
    (c.toMidi p = none →
      (quantizePitch c (some p) st).notes = st.notes ∧
      (quantizePitch c (some p) st).warnings = st.warnings + 1) ∧
    (∀ m, c.toMidi p = some m → 48 ≤ m → m ≤ 84 → c.toNote m = none →
      (quantizePitch c (some p) st).notes = st.notes ∧
      (quantizePitch c (some p) st).warnings = st.warnings + 1) := by
  constructor
  · intro hm
    constructor <;> simp [quantizePitch, h, hm]
  · intro m hm h48 h84 hn
    constructor <;> simp [quantizePitch, h, hm, h48, h84, hn]

/-- Every loop iteration, silent or not, advances the counter by one,
reports exactly one progress value `(processedWindows + 1) / totalWindows`,
and records its offset. -/
theorem processWindow_fields (c : Collab) (sr : ℚ) (tW : ℤ) (i : ℕ)
    (seg : List ℚ) (st : RunState) :
    (processWindow c sr tW i seg st).processedWindows = st.processedWindows + 1 ∧
    (processWindow c sr tW i seg st).events
        = st.events ++ [jsDiv ((st.processedWindows + 1 : ℕ) : ℚ) ((tW : ℤ) : ℚ)] ∧
    (processWindow c sr tW i seg st).offsets = st.offsets ++ [i] := by
  unfold processWindow recordProgress
  split
  · exact ⟨rfl, rfl, rfl⟩
  · obtain ⟨h1, h2, h3⟩ := quantizePitch_fields c
      (autocorrelationPitchDetection (applyWindowFunction c seg) sr) st
    refine ⟨?_, ?_, ?_⟩ <;> simp [h1, h2, h3]

/-- A note appended by one loop iteration comes with a pitch estimate
that passed the full guard chain on that iteration's window. -/
theorem processWindow_notes (c : Collab) (sr : ℚ) (tW : ℤ) (i : ℕ)
    (seg : List ℚ) (st : RunState) (s : String)
    (hs : s ∈ (processWindow c sr tW i seg st).notes) :
    s ∈ st.notes ∨
    ∃ p m, autocorrelationPitchDetection (applyWindowFunction c seg) sr = some p ∧
      ¬p = 0 ∧ 60 < p ∧ p < 1000 ∧
      c.toMidi p = some m ∧ 48 ≤ m ∧ m ≤ 84 ∧ c.toNote m = some s := by
  unfold processWindow recordProgress at hs
  split at hs
  · exact Or.inl hs
  · rcases quantizePitch_notes c
        (autocorrelationPitchDetection (applyWindowFunction c seg) sr) st with hq | hq
    · rw [hq] at hs
      exact Or.inl hs
    · obtain ⟨p, m, s', hpitch, hp0, hp60, hp1000, hm, h48, h84, hn, hnotes⟩ := hq
      rw [hnotes] at hs
      rcases List.mem_append.mp hs with hmem | hmem
      · exact Or.inl hmem
      · have : s = s' := List.mem_singleton.mp hmem
        subst this
        exact Or.inr ⟨p, m, hpitch, hp0, hp60, hp1000, hm, h48, h84, hn⟩

theorem pendingWindows_step (len i : ℕ)
    (h : (i : ℤ) < (len : ℤ) - (windowSize : ℤ)) :
    pendingWindows len i = pendingWindows len (i + stepSize) + 1 := by
  simp only [pendingWindows, windowSize, stepSize] at *
  omega

theorem pendingWindows_done (len i : ℕ)
    (h : ¬(i : ℤ) < (len : ℤ) - (windowSize : ℤ)) :
    pendingWindows len i = 0 := by
  simp only [pendingWindows, windowSize, stepSize] at *
  omega

/-- Prepending the image of `0` turns a mapped `range m` into a mapped
`range (m + 1)` when the function shifts accordingly. -/
theorem cons_map_range {α : Type} (f g : ℕ → α) (m : ℕ)
    (h0 : ∀ k, g k = f (k + 1)) :
    f 0 :: (List.range m).map g = (List.range (m + 1)).map f := by
  rw [List.range_succ_eq_map, List.map_cons, List.map_map]
  exact congrArg (f 0 :: ·) (List.map_congr_left (fun k _ => (h0 k).symm)).symm

/-- Exact characterisation of one run of the loop from offset `i`,
given enough fuel: the counter advances by `pendingWindows`, the
progress callback receives `(processedWindows + k + 1) / totalWindows`
for `k = 0, 1, …`, and the visited offsets are `i, i + stepSize, …`. -/
theorem analyzeLoop_spec (c : Collab) (data : List ℚ) (sr : ℚ) (tW : ℤ) :
    ∀ (fuel i : ℕ) (st : RunState),
    ((data.length : ℤ) - (windowSize : ℤ)) ≤ (i : ℤ) + (stepSize : ℤ) * fuel →
    (analyzeLoop c data sr tW fuel i st).processedWindows
        = st.processedWindows + pendingWindows data.length i ∧
    (analyzeLoop c data sr tW fuel i st).events
        = st.events ++ (List.range (pendingWindows data.length i)).map
            (fun k => jsDiv ((st.processedWindows + k + 1 : ℕ) : ℚ) ((tW : ℤ) : ℚ)) ∧
    (analyzeLoop c data sr tW fuel i st).offsets
        = st.offsets ++ (List.range (pendingWindows data.length i)).map
            (fun k => i + stepSize * k) := by
  intro fuel
  induction fuel with
  | zero =>
    intro i st hf
    have h0 : pendingWindows data.length i = 0 := by
      simp only [pendingWindows, windowSize, stepSize] at *
      omega
    simp [analyzeLoop, h0]
  | succ n ih =>
    intro i st hf
    by_cases h : (i : ℤ) < (data.length : ℤ) - (windowSize : ℤ)
    · have hrec : analyzeLoop c data sr tW (n + 1) i st
          = analyzeLoop c data sr tW n (i + stepSize)
              (processWindow c sr tW i (windowAt data i) st) := by
        simp [analyzeLoop, if_pos h]
      have hfn : ((data.length : ℤ) - (windowSize : ℤ))
          ≤ ((i + stepSize : ℕ) : ℤ) + (stepSize : ℤ) * n := by
        simp only [windowSize, stepSize] at *
        push_cast at *
        omega
      obtain ⟨hP, hE, hO⟩ := ih (i + stepSize) (processWindow c sr tW i (windowAt data i) st) hfn
      obtain ⟨pP, pE, pO⟩ := processWindow_fields c sr tW i (windowAt data i) st
      rw [hrec, pendingWindows_step data.length i h]
      refine ⟨?_, ?_, ?_⟩
      · rw [hP, pP]
        omega
      · rw [hE]
        simp only [pP, pE]
        rw [List.append_assoc, List.singleton_append]
        refine congrArg (st.events ++ ·) ?_
        exact cons_map_range
          (fun k => jsDiv ((st.processedWindows + k + 1 : ℕ) : ℚ) ((tW : ℤ) : ℚ))
          (fun k => jsDiv ((st.processedWindows + 1 + k + 1 : ℕ) : ℚ) ((tW : ℤ) : ℚ))
          (pendingWindows data.length (i + stepSize))
          (fun k => congrArg (fun n : ℕ => jsDiv (n : ℚ) ((tW : ℤ) : ℚ)) (by omega))
      · rw [hO]
        simp only [pO]
        rw [List.append_assoc, List.singleton_append]
        refine congrArg (st.offsets ++ ·) ?_
        exact cons_map_range
          (fun k => i + stepSize * k)
          (fun k => i + stepSize + stepSize * k)
          (pendingWindows data.length (i + stepSize))
          (fun k => by show i + stepSize + stepSize * k = i + stepSize * (k + 1); ring)
    · have h0 := pendingWindows_done data.length i h
      simp [analyzeLoop, if_neg h, h0]

/-- Invariant: any note present after running the loop was either
present before, or was appended by some iteration whose window passed
the whole guard chain. -/
theorem analyzeLoop_notes_origin (c : Collab) (data : List ℚ) (sr : ℚ) (tW : ℤ) :
    ∀ (fuel i : ℕ) (st : RunState) (s : String),
    s ∈ (analyzeLoop c data sr tW fuel i st).notes →
    s ∈ st.notes ∨
    ∃ j p m, autocorrelationPitchDetection (applyWindowFunction c (windowAt data j)) sr = some p ∧
      ¬p = 0 ∧ 60 < p ∧ p < 1000 ∧
      c.toMidi p = some m ∧ 48 ≤ m ∧ m ≤ 84 ∧ c.toNote m = some s := by
  intro fuel
  induction fuel with
  | zero =>
    intro i st s hs
    exact Or.inl hs
  | succ n ih =>
    intro i st s hs
    by_cases h : (i : ℤ) < (data.length : ℤ) - (windowSize : ℤ)
    · rw [show analyzeLoop c data sr tW (n + 1) i st
          = analyzeLoop c data sr tW n (i + stepSize)
              (processWindow c sr tW i (windowAt data i) st) from by
        simp [analyzeLoop, if_pos h]] at hs
      rcases ih (i + stepSize) (processWindow c sr tW i (windowAt data i) st) s hs with hmem | hfound
      · rcases processWindow_notes c sr tW i (windowAt data i) st s hmem with hmem2 | hfound2
        · exact Or.inl hmem2
        · obtain ⟨p, m, hrest⟩ := hfound2
          exact Or.inr ⟨i, p, m, hrest⟩
      · exact Or.inr hfound
    · rw [show analyzeLoop c data sr tW (n + 1) i st = st from by
        simp [analyzeLoop, if_neg h]] at hs
      exact Or.inl hs

/-- The running maximum of absolute values is zero exactly when the
initial value is zero and every list element is zero. -/
theorem foldl_maxAbs_eq_zero (l : List ℚ) :
    ∀ a : ℚ, 0 ≤ a →
    (l.foldl (fun m x => max m |x|) a = 0 ↔ a = 0 ∧ ∀ x ∈ l, x = 0) := by
  induction l with
  | nil =>
    intro a _
    simp
  | cons x t ih =>
    intro a ha
    rw [List.foldl_cons, ih (max a |x|) (le_trans ha (le_max_left _ _))]
    constructor
    · rintro ⟨hmax, hall⟩
      have hax : a = 0 ∧ |x| = 0 := by
        constructor
        · exact le_antisymm (hmax ▸ le_max_left a |x|) ha
        · exact le_antisymm (hmax ▸ le_max_right a |x|) (abs_nonneg x)
      refine ⟨hax.1, fun y hy => ?_⟩
      rcases List.mem_cons.mp hy with hy | hy
      · exact hy ▸ abs_eq_zero.mp hax.2
      · exact hall y hy
    · rintro ⟨ha0, hall⟩
      have hx0 : x = 0 := hall x (List.mem_cons_self x t)
      refine ⟨?_, fun y hy => hall y (List.mem_cons_of_mem x hy)⟩
      rw [ha0, hx0]
      simp

/-- The maximum `maxAbs` is zero exactly on all-zero windows. -/
theorem maxAbs_eq_zero_iff (buf : List ℚ) : maxAbs buf = 0 ↔ ∀ x ∈ buf, x = 0 := by
  unfold maxAbs
  rw [foldl_maxAbs_eq_zero buf 0 le_rfl]
  simp

/-- Invariant of the peak scan (lines 91-96): starting strictly past all
inspected lags from an accumulator that already holds the first maximum
of `corr.getD · 0` over `[lo, s)` attained first at `p`, folding over
`range' s n` yields the first maximum over `[lo, s + n)`. -/
theorem peakScan_go (corr : List ℚ) (lo : ℕ) :
    ∀ (n s p : ℕ) (m : ℚ),
    lo ≤ p → p < s → corr.getD p 0 = m →
    (∀ j, lo ≤ j → j < s → corr.getD j 0 ≤ m) →
    (∀ j, lo ≤ j → j < p → corr.getD j 0 < m) →
    ∃ q m', (List.range' s n).foldl (peakScanStep corr) (p, some m) = (q, some m') ∧
      lo ≤ q ∧ q < s + n ∧ corr.getD q 0 = m' ∧
      (∀ j, lo ≤ j → j < s + n → corr.getD j 0 ≤ m') ∧
      (∀ j, lo ≤ j → j < q → corr.getD j 0 < m') := by
  intro n
  induction n with
  | zero =>
    intro s p m hlo hps hval hle hlt
    exact ⟨p, m, rfl, hlo, by omega, hval, fun j h1 h2 => hle j h1 (by omega), hlt⟩
  | succ n ih =>
    intro s p m hlo hps hval hle hlt
    rw [List.range'_succ, List.foldl_cons]
    by_cases hnew : m < corr.getD s 0
    · have hstep : peakScanStep corr (p, some m) s = (s, some (corr.getD s 0)) := by
        show (if m < corr.getD s 0 then (s, some (corr.getD s 0)) else (p, some m))
            = (s, some (corr.getD s 0))
        rw [if_pos hnew]
      rw [hstep]
      obtain ⟨q, m', hfold, h1, h2, h3, h4, h5⟩ :=
        ih (s + 1) s (corr.getD s 0) (by omega) (by omega) rfl
          (fun j hj1 hj2 => by
            rcases Nat.lt_succ_iff_lt_or_eq.mp hj2 with hj | hj
            · exact le_of_lt (lt_of_le_of_lt (hle j hj1 hj) hnew)
            · exact hj ▸ le_rfl)
          (fun j hj1 hj2 => lt_of_le_of_lt (hle j hj1 hj2) hnew)
      exact ⟨q, m', hfold, h1, by omega, h3, fun j hj1 hj2 => h4 j hj1 (by omega), h5⟩
    · have hstep : peakScanStep corr (p, some m) s = (p, some m) := by
        show (if m < corr.getD s 0 then (s, some (corr.getD s 0)) else (p, some m))
            = (p, some m)
        rw [if_neg hnew]
      rw [hstep]
      push_neg at hnew
      obtain ⟨q, m', hfold, h1, h2, h3, h4, h5⟩ :=
        ih (s + 1) p m hlo (by omega) hval
          (fun j hj1 hj2 => by
            rcases Nat.lt_succ_iff_lt_or_eq.mp hj2 with hj | hj
            · exact hle j hj1 hj
            · exact hj ▸ hnew)
          hlt
      exact ⟨q, m', hfold, h1, by omega, h3, fun j hj1 hj2 => h4 j hj1 (by omega), h5⟩

/-- The peak search returns the first (lowest) lag in `[minLag, length)`
attaining the maximum correlation over that range, whenever the range is
nonempty. -/
theorem findPeakIndex_spec (corr : List ℚ) (lo : ℕ) (h : lo < corr.length) :
    lo ≤ findPeakIndex corr lo ∧ findPeakIndex corr lo < corr.length ∧
    (∀ j, lo ≤ j → j < corr.length →
      corr.getD j 0 ≤ corr.getD (findPeakIndex corr lo) 0) ∧
    (∀ j, lo ≤ j → j < findPeakIndex corr lo →
      corr.getD j 0 < corr.getD (findPeakIndex corr lo) 0) := by
  unfold findPeakIndex
  have hn : corr.length - lo = (corr.length - lo - 1) + 1 := by omega
  rw [hn, List.range'_succ, List.foldl_cons]
  have hstep : peakScanStep corr (0, none) lo = (lo, some (corr.getD lo 0)) := rfl
  rw [hstep]
  obtain ⟨q, m', hfold, h1, h2, h3, h4, h5⟩ :=
    peakScan_go corr lo (corr.length - lo - 1) (lo + 1) lo (corr.getD lo 0)
      le_rfl (by omega) rfl
      (fun j hj1 hj2 => by
        have : j = lo := by omega
        exact this ▸ le_rfl)
      (fun j hj1 hj2 => absurd hj2 (by omega))
  rw [hfold]
  have hlen : lo + 1 + (corr.length - lo - 1) = corr.length := by omega
  rw [hlen] at h2 h4
  exact ⟨h1, h2, fun j hj1 hj2 => h3 ▸ h4 j hj1 hj2, fun j hj1 hj2 => h3 ▸ h5 j hj1 hj2⟩

/-- Running `processWindow` on a window that fails the silence gate reduces to
pure progress recording. -/
theorem processWindow_notes_eq (c : Collab) (sr : ℚ) (tW : ℤ) (i : ℕ)
    (seg : List ℚ) (st : RunState) (hgate : ¬rmsSq seg < 1 / 10000) :
    (processWindow c sr tW i seg st).notes
        = (quantizePitch c
            (autocorrelationPitchDetection (applyWindowFunction c seg) sr) st).notes ∧
    (processWindow c sr tW i seg st).warnings
        = (quantizePitch c
            (autocorrelationPitchDetection (applyWindowFunction c seg) sr) st).warnings := by
  unfold processWindow
  rw [if_neg hgate]
  exact ⟨rfl, rfl⟩

/-! ## Claim theorems -/

/-- Claim C5: in the estimator, the fundamental lag is located by a
linear scan for the maximum correlation value restricted to lags
`lag ≥ minLag` with `minLag = floor(sampleRate / 1000)`, and on ties the
first (lowest) lag encountered is kept: the returned index lies in
`[minLag, length)`, its correlation value is maximal on that range, and
every earlier in-range lag has strictly smaller correlation. -/
theorem c5_peak_scan (corr : List ℚ) (sr : ℚ)
    (h : (⌊sr / 1000⌋).toNat < corr.length) :
    (⌊sr / 1000⌋).toNat ≤ findPeakIndex corr (⌊sr / 1000⌋).toNat ∧
    findPeakIndex corr (⌊sr / 1000⌋).toNat < corr.length ∧
    (∀ j, (⌊sr / 1000⌋).toNat ≤ j → j < corr.length →
      corr.getD j 0 ≤ corr.getD (findPeakIndex corr (⌊sr / 1000⌋).toNat) 0) ∧
    (∀ j, (⌊sr / 1000⌋).toNat ≤ j → j < findPeakIndex corr (⌊sr / 1000⌋).toNat →
      corr.getD j 0 < corr.getD (findPeakIndex corr (⌊sr / 1000⌋).toNat) 0) :=
  findPeakIndex_spec corr _ h

/-- Witness for C5 on the profile `[5, 3, 7, 7]` at sample rate 1000
(`minLag = 1`): the scan picks lag 2, the first of the two tied maxima. -/
theorem c5_witness :
    ((⌊(1000 : ℚ) / 1000⌋).toNat ≤ findPeakIndex [5, 3, 7, 7] (⌊(1000 : ℚ) / 1000⌋).toNat ∧
     findPeakIndex [5, 3, 7, 7] (⌊(1000 : ℚ) / 1000⌋).toNat < ([5, 3, 7, 7] : List ℚ).length ∧
     (∀ j, (⌊(1000 : ℚ) / 1000⌋).toNat ≤ j → j < ([5, 3, 7, 7] : List ℚ).length →
       ([5, 3, 7, 7] : List ℚ).getD j 0
         ≤ ([5, 3, 7, 7] : List ℚ).getD (findPeakIndex [5, 3, 7, 7] (⌊(1000 : ℚ) / 1000⌋).toNat) 0) ∧
     (∀ j, (⌊(1000 : ℚ) / 1000⌋).toNat ≤ j →
       j < findPeakIndex [5, 3, 7, 7] (⌊(1000 : ℚ) / 1000⌋).toNat →
       ([5, 3, 7, 7] : List ℚ).getD j 0
         < ([5, 3, 7, 7] : List ℚ).getD (findPeakIndex [5, 3, 7, 7] (⌊(1000 : ℚ) / 1000⌋).toNat) 0)) ∧
    findPeakIndex [5, 3, 7, 7] (⌊(1000 : ℚ) / 1000⌋).toNat = 2 :=
  ⟨c5_peak_scan [5, 3, 7, 7] 1000 (by norm_num),
   by norm_num [findPeakIndex, peakScanStep, List.range']⟩

/-- Claim C6: a window whose RMS is below 0.01 (equivalently, whose mean
squared amplitude is below `0.01 ^ 2`) contributes no note and no
warning, while the progress counter still advances and the observer is
still invoked exactly once for that window. -/
theorem c6_silence_gate (c : Collab) (sr : ℚ) (tW : ℤ) (i : ℕ)
    (seg : List ℚ) (st : RunState) (h : rmsSq seg < 1 / 10000) :
    (processWindow c sr tW i seg st).notes = st.notes ∧
    (processWindow c sr tW i seg st).warnings = st.warnings ∧
    (processWindow c sr tW i seg st).processedWindows = st.processedWindows + 1 ∧
    (processWindow c sr tW i seg st).events
        = st.events ++ [jsDiv ((st.processedWindows + 1 : ℕ) : ℚ) ((tW : ℤ) : ℚ)] := by
  unfold processWindow recordProgress
  rw [if_pos h]
  exact ⟨rfl, rfl, rfl, rfl⟩

/-- Witness for C6: the all-zero window `[0, 0, 0, 0]` is gated as
silence and only the progress record changes. -/
theorem c6_witness :
    rmsSq [0, 0, 0, 0] < 1 / 10000 ∧
    (processWindow stubCollab 44100 3 0 [0, 0, 0, 0] initialState).notes = initialState.notes ∧
    (processWindow stubCollab 44100 3 0 [0, 0, 0, 0] initialState).processedWindows
        = initialState.processedWindows + 1 ∧
    (processWindow stubCollab 44100 3 0 [0, 0, 0, 0] initialState).events
        = initialState.events
            ++ [jsDiv ((initialState.processedWindows + 1 : ℕ) : ℚ) (((3 : ℤ) : ℤ) : ℚ)] := by
  have hq : rmsSq [0, 0, 0, 0] < 1 / 10000 := by norm_num [rmsSq]
  obtain ⟨h1, _, h3, h4⟩ := c6_silence_gate stubCollab 44100 3 0 [0, 0, 0, 0] initialState hq
  exact ⟨hq, h1, h3, h4⟩

/-- Claim C8: the estimator divides every sample by the window's maximum
absolute sample value, and when that maximum is exactly zero (precisely:
for the all-zero windows) it returns no estimate instead of dividing. -/
theorem c8_normalization_guard (buf : List ℚ) (sr : ℚ) :
    (maxAbs buf = 0 ↔ ∀ x ∈ buf, x = 0) ∧
    (maxAbs buf = 0 → autocorrelationPitchDetection buf sr = none) ∧
    (¬maxAbs buf = 0 → autocorrelationPitchDetection buf sr
        = finishPitch sr (refinePeak (corrProfile (buf.map (fun x => x / maxAbs buf)))
            (findPeakIndex (corrProfile (buf.map (fun x => x / maxAbs buf)))
              (⌊sr / 1000⌋).toNat))) := by
  refine ⟨maxAbs_eq_zero_iff buf, fun h => ?_, fun h => ?_⟩
  · unfold autocorrelationPitchDetection
    rw [if_pos h]
  · unfold autocorrelationPitchDetection
    rw [if_neg h]

/-- Witness for C8: on the all-zero two-sample window the estimator
returns no estimate. -/
theorem c8_witness :
    maxAbs [0, 0] = 0 ∧ autocorrelationPitchDetection [0, 0] 44100 = none := by
  have h0 : maxAbs [0, 0] = 0 := by norm_num [maxAbs]
  exact ⟨h0, (c8_normalization_guard [0, 0] 44100).2.1 h0⟩

/-- Claim C9: at an interior peak with equal neighbours and a nonzero
interpolation denominator the refined lag is exactly `p`; at a strict
interior peak with unequal neighbours the refined lag is finite, lies
strictly between `p - 1` and `p + 1`, and is shifted toward the larger
neighbour. -/
theorem c9_parabolic_interpolation (corr : List ℚ) (p : ℕ)
    (h1 : 0 < p) (h2 : p < corr.length - 1) :
    (corr.getD (p - 1) 0 = corr.getD (p + 1) 0 →
      ¬2 * (corr.getD (p - 1) 0 - 2 * corr.getD p 0 + corr.getD (p + 1) 0) = 0 →
      refinePeak corr p = .num p) ∧
    (corr.getD (p - 1) 0 < corr.getD p 0 → corr.getD (p + 1) 0 < corr.getD p 0 →
      ¬corr.getD (p - 1) 0 = corr.getD (p + 1) 0 →
      ∃ q, refinePeak corr p = .num q ∧
        (p : ℚ) - 1 < q ∧ q < (p : ℚ) + 1 ∧
        (corr.getD (p - 1) 0 < corr.getD (p + 1) 0 → (p : ℚ) < q) ∧
        (corr.getD (p + 1) 0 < corr.getD (p - 1) 0 → q < (p : ℚ))) := by
  have hif : refinePeak corr p
      = jsAdd (.num p) (jsDiv (corr.getD (p - 1) 0 - corr.getD (p + 1) 0)
          (2 * (corr.getD (p - 1) 0 - 2 * corr.getD p 0 + corr.getD (p + 1) 0))) := by
    unfold refinePeak
    rw [if_pos ⟨h1, h2⟩]
  set α := corr.getD (p - 1) 0
  set β := corr.getD p 0
  set γ := corr.getD (p + 1) 0
  constructor
  · intro hsym hden
    rw [hif]
    rw [hsym] at hden ⊢
    rw [sub_self]
    unfold jsDiv
    rw [if_neg hden]
    show JsVal.num ((p : ℚ) + 0 / (2 * (γ - 2 * β + γ))) = JsVal.num (p : ℚ)
    norm_num
  · intro hab hgb hne
    have hDneg : 2 * (α - 2 * β + γ) < 0 := by linarith
    have hD : ¬2 * (α - 2 * β + γ) = 0 := ne_of_lt hDneg
    have hmul : (α - γ) / (2 * (α - 2 * β + γ)) * (2 * (α - 2 * β + γ)) = α - γ :=
      div_mul_cancel₀ _ hD
    have hlb : -1 < (α - γ) / (2 * (α - 2 * β + γ)) := by
      by_contra hc
      push_neg at hc
      have hfac : (0 : ℚ) ≤ -1 - (α - γ) / (2 * (α - 2 * β + γ)) := by linarith
      nlinarith [mul_nonneg hfac (by linarith : (0 : ℚ) ≤ -(2 * (α - 2 * β + γ)))]
    have hub : (α - γ) / (2 * (α - 2 * β + γ)) < 1 := by
      by_contra hc
      push_neg at hc
      have hfac : (0 : ℚ) ≤ (α - γ) / (2 * (α - 2 * β + γ)) - 1 := by linarith
      nlinarith [mul_nonneg hfac (by linarith : (0 : ℚ) ≤ -(2 * (α - 2 * β + γ)))]
    refine ⟨(p : ℚ) + (α - γ) / (2 * (α - 2 * β + γ)), ?_, by linarith, by linarith, ?_, ?_⟩
    · rw [hif]
      unfold jsDiv
      rw [if_neg hD]
      rfl
    · intro hlt
      have : 0 < (α - γ) / (2 * (α - 2 * β + γ)) :=
        div_pos_of_neg_of_neg (by linarith) hDneg
      linarith
    · intro hlt
      have : (α - γ) / (2 * (α - 2 * β + γ)) < 0 :=
        div_neg_of_pos_of_neg (by linarith) hDneg
      linarith

/-- Witness for C9: on the spec's two example profiles (peak at index 1)
the symmetric profile `[1/2, 1, 1/2]` refines to exactly 1, and the
asymmetric profile `[3/10, 1, 3/5]` refines into `(0, 2)` strictly above
1, toward the larger right neighbour. -/
theorem c9_witness :
    refinePeak [1/2, 1, 1/2] 1 = .num 1 ∧
    ∃ q, refinePeak [3/10, 1, 3/5] 1 = .num q ∧
      (1 : ℚ) - 1 < q ∧ q < (1 : ℚ) + 1 ∧
      (([3/10, 1, 3/5] : List ℚ).getD 0 0 < ([3/10, 1, 3/5] : List ℚ).getD 2 0 → (1 : ℚ) < q) ∧
      (([3/10, 1, 3/5] : List ℚ).getD 2 0 < ([3/10, 1, 3/5] : List ℚ).getD 0 0 → q < (1 : ℚ)) := by
  constructor
  · have h := (c9_parabolic_interpolation [1/2, 1, 1/2] 1 (by norm_num) (by norm_num)).1
      (by norm_num) (by norm_num)
    simpa using h
  · have h := (c9_parabolic_interpolation [3/10, 1, 3/5] 1 (by norm_num) (by norm_num)).2
      (by norm_num) (by norm_num) (by norm_num)
    simpa using h

/-- Claim C7: for a window that passes the silence gate, a note is
emitted if and only if the pitch estimate is present (and truthy), lies
strictly inside (60, 1000) Hz, the naming service yields a MIDI number
in [48, 84], and the note rendering succeeds; a naming-service failure
for an otherwise in-range value is non-fatal — one warning is recorded,
the window's note is skipped, and the window still completes (its
progress still advances). -/
theorem c7_quantizer_guard (c : Collab) (sr : ℚ) (tW : ℤ) (i : ℕ)
    (seg : List ℚ) (st : RunState) (hgate : ¬rmsSq seg < 1 / 10000) :
    ((processWindow c sr tW i seg st).notes ≠ st.notes ↔
      ∃ p m s, autocorrelationPitchDetection (applyWindowFunction c seg) sr = some p ∧
        ¬p = 0 ∧ 60 < p ∧ p < 1000 ∧ c.toMidi p = some m ∧ 48 ≤ m ∧ m ≤ 84 ∧
        c.toNote m = some s ∧
        (processWindow c sr tW i seg st).notes = st.notes ++ [s]) ∧
    (∀ p, autocorrelationPitchDetection (applyWindowFunction c seg) sr = some p →
      ¬p = 0 → 60 < p → p < 1000 →
      (c.toMidi p = none →
        (processWindow c sr tW i seg st).notes = st.notes ∧
        (processWindow c sr tW i seg st).warnings = st.warnings + 1) ∧
      (∀ m, c.toMidi p = some m → 48 ≤ m → m ≤ 84 → c.toNote m = none →
        (processWindow c sr tW i seg st).notes = st.notes ∧
        (processWindow c sr tW i seg st).warnings = st.warnings + 1)) ∧
    (processWindow c sr tW i seg st).processedWindows = st.processedWindows + 1 := by
  obtain ⟨hnotes, hwarn⟩ := processWindow_notes_eq c sr tW i seg st hgate
  refine ⟨⟨fun hne => ?_, fun hex => ?_⟩, fun p hp hp0 hp60 hp1000 => ⟨fun hm => ?_, ?_⟩,
    (processWindow_fields c sr tW i seg st).1⟩
  · rcases quantizePitch_notes c
        (autocorrelationPitchDetection (applyWindowFunction c seg) sr) st with hq | hq
    · exact absurd (hnotes.trans hq) hne
    · obtain ⟨p, m, s, hpitch, hp0, hp60, hp1000, hm, h48, h84, hn, happ⟩ := hq
      exact ⟨p, m, s, hpitch, hp0, hp60, hp1000, hm, h48, h84, hn, hnotes.trans happ⟩
  · obtain ⟨p, m, s, hpitch, hp0, hp60, hp1000, hm, h48, h84, hn, happ⟩ := hex
    rw [happ]
    simp
  · have hw := (quantizePitch_warns c p st ⟨hp0, hp60, hp1000⟩).1 hm
    rw [hnotes, hwarn, hp]
    exact hw
  · intro m hm h48 h84 hn
    have hw := (quantizePitch_warns c p st ⟨hp0, hp60, hp1000⟩).2 m hm h48 h84 hn
    rw [hnotes, hwarn, hp]
    exact hw

/-- The taper with cosine constantly `-1` multiplies every sample by 1. -/
theorem applyWindowFunction_collabC4 :
    applyWindowFunction collabC4 [1, -1, 1, -1, 1, -1, 1, -1]
      = ([1, -1, 1, -1, 1, -1, 1, -1] : List ℚ) := by
  norm_num [applyWindowFunction, collabC4, List.mapIdx_cons]

/-- The estimator on the alternating window `[1, -1, …]` of length 8 at
sample rate 1000: peak at lag 2, refined to `49/24`, pitch `24000/49`. -/
theorem pitch_alternating8 :
    autocorrelationPitchDetection
        (applyWindowFunction collabC4 [1, -1, 1, -1, 1, -1, 1, -1]) 1000
      = some (24000 / 49) := by
  rw [applyWindowFunction_collabC4]
  norm_num [autocorrelationPitchDetection, maxAbs, corrProfile, corrAt, findPeakIndex,
    refinePeak, peakScanStep, jsDiv, jsAdd, finishPitch, List.range, List.range.loop,
    List.range']

/-- Witness for C7: the alternating window passes the gate, its estimate
`24000/49 ≈ 489.8` Hz passes the guard, the stub naming service succeeds
with MIDI 60, and the note C4 is appended. -/
theorem c7_witness :
    (processWindow collabC4 1000 5 0 [1, -1, 1, -1, 1, -1, 1, -1] initialState).notes
      ≠ initialState.notes := by
  have h := c7_quantizer_guard collabC4 1000 5 0 [1, -1, 1, -1, 1, -1, 1, -1] initialState
    (by norm_num [rmsSq])
  refine h.1.mpr ⟨24000 / 49, 60, "C4", pitch_alternating8, by norm_num, by norm_num,
    by norm_num, rfl, by norm_num, by norm_num, rfl, ?_⟩
  have hg : ¬rmsSq ([1, -1, 1, -1, 1, -1, 1, -1] : List ℚ) < 1 / 10000 := by
    norm_num [rmsSq]
  obtain ⟨hnotes, _⟩ := processWindow_notes_eq collabC4 1000 5 0
    [1, -1, 1, -1, 1, -1, 1, -1] initialState hg
  rw [hnotes, pitch_alternating8]
  exact quantizePitch_emits collabC4 (24000 / 49) 60 "C4" initialState
    ⟨by norm_num, by norm_num, by norm_num⟩ rfl ⟨by norm_num, by norm_num⟩ rfl

/-- Claim C10: every note present after running the analysis loop —
in particular every note in the sequence returned by `analyzePitch`,
which starts from the empty note list — was either present in the
starting state or originates from a window whose pitch estimate was a
present, truthy (nonzero, hence non-null, non-NaN) value strictly
between 60 and 1000 whose MIDI conversion landed in [48, 84]; an
estimate of `none` or exactly 0 (as arises from an infinite refined lag)
never produces a note. -/
theorem c10_note_guard_invariant (c : Collab) (data : List ℚ) (sr : ℚ) (tW : ℤ)
    (fuel i : ℕ) (st : RunState) :
    ∀ s, s ∈ (analyzeLoop c data sr tW fuel i st).notes →
    s ∈ st.notes ∨
    ∃ j p m,
      autocorrelationPitchDetection (applyWindowFunction c (windowAt data j)) sr = some p ∧
      ¬p = 0 ∧ 60 < p ∧ p < 1000 ∧ c.toMidi p = some m ∧ 48 ≤ m ∧ m ≤ 84 ∧
      c.toNote m = some s :=
  fun s hs => analyzeLoop_notes_origin c data sr tW fuel i st s hs

/-- Witness for C10 at a concrete instance: an empty buffer run started
from a state already carrying the note A4. -/
theorem c10_witness :
    "A4" ∈ (analyzeLoop stubCollab [] 44100 0 1 0 ⟨["A4"], 0, [], 0, []⟩).notes ∧
    ("A4" ∈ (⟨["A4"], 0, [], 0, []⟩ : RunState).notes ∨
      ∃ j p m,
        autocorrelationPitchDetection
            (applyWindowFunction stubCollab (windowAt [] j)) 44100 = some p ∧
        ¬p = 0 ∧ 60 < p ∧ p < 1000 ∧ stubCollab.toMidi p = some m ∧ 48 ≤ m ∧ m ≤ 84 ∧
        stubCollab.toNote m = some ("A4")) := by
  have hmem : "A4" ∈ (analyzeLoop stubCollab [] 44100 0 1 0 ⟨["A4"], 0, [], 0, []⟩).notes := by
    simp [analyzeLoop, windowSize]
  exact ⟨hmem, c10_note_guard_invariant stubCollab [] 44100 0 1 0 _ "A4" hmem⟩

/-- Specialisation of `analyzeLoop_spec` to a whole run: the counter
ends at `pendingWindows length 0` (the actual number of loop
iterations), the observer receives `k / totalWindows` for
`k = 1 … pendingWindows length 0`, and the analysed offsets are the
multiples of `stepSize` strictly below `length - windowSize`. -/
theorem analyzePitch_spec (c : Collab) (data : List ℚ) (sr : ℚ) :
    (analyzePitch c data sr).processedWindows = pendingWindows data.length 0 ∧
    (analyzePitch c data sr).events
        = (List.range (pendingWindows data.length 0)).map
            (fun k => jsDiv ((k + 1 : ℕ) : ℚ) ((totalWindows data.length : ℤ) : ℚ)) ∧
    (analyzePitch c data sr).offsets
        = (List.range (pendingWindows data.length 0)).map (fun k => stepSize * k) := by
  unfold analyzePitch
  obtain ⟨hP, hE, hO⟩ := analyzeLoop_spec c data sr (totalWindows data.length)
    (data.length + 1) 0 initialState
    (by simp only [windowSize, stepSize]; push_cast; omega)
  rw [hP, hE, hO]
  refine ⟨by simp [initialState], ?_, ?_⟩
  · simp only [initialState, List.nil_append]
    exact List.map_congr_left
      (fun k _ => congrArg (fun n : ℕ => jsDiv (n : ℚ) ((totalWindows data.length : ℤ) : ℚ))
        (by omega))
  · simp only [initialState, List.nil_append]
    exact List.map_congr_left (fun k _ => by omega)

/-- Claim C1 (code bug): the source has no guard on the interpolation
denominator.  On the constant window of eight ones at sample rate 1000
the scan picks lag `p = 1` with correlation profile `[8, 7, 6, 5]`, the
denominator `2 * (8 - 2*7 + 6)` is zero, the offset becomes
`2 / 0 = +Infinity`, and the estimator returns the pitch
`sampleRate / Infinity = 0` instead of the claimed `sampleRate / p = 1000`. -/
theorem c1_missing_denominator_guard :
    autocorrelationPitchDetection (List.replicate 8 1) 1000 = some 0 ∧
    2 * (corrAt (List.replicate 8 1) 0 - 2 * corrAt (List.replicate 8 1) 1
        + corrAt (List.replicate 8 1) 2) = 0 ∧
    ¬autocorrelationPitchDetection (List.replicate 8 1) 1000 = some (1000 / 1) := by
  refine ⟨?_, ?_, ?_⟩
  · norm_num [autocorrelationPitchDetection, maxAbs, corrProfile, corrAt, findPeakIndex,
      refinePeak, peakScanStep, jsDiv, jsAdd, finishPitch, List.range, List.range.loop,
      List.range', List.replicate]
  · norm_num [corrAt, List.replicate]
  · norm_num [autocorrelationPitchDetection, maxAbs, corrProfile, corrAt, findPeakIndex,
      refinePeak, peakScanStep, jsDiv, jsAdd, finishPitch, List.range, List.range.loop,
      List.range', List.replicate]

/-- Claim C2 (code bug): on a buffer of 5121 samples the loop runs
`ceil(1025 / 1024) = 2` iterations while `totalWindows = floor(1025 / 1024) = 1`,
so the observer is invoked twice — not `totalWindows` times — and the
final progress value is `2 / 1 = 2`, not `1.0`. -/
theorem c2_progress_overshoot (c : Collab) :
    (analyzePitch c (List.replicate 5121 0) 44100).events = [.num 1, .num 2] ∧
    totalWindows 5121 = 1 := by
  have htw : totalWindows 5121 = 1 := by
    norm_num [totalWindows, windowSize, stepSize]
  constructor
  · obtain ⟨_, hE, _⟩ := analyzePitch_spec c (List.replicate 5121 0) 44100
    rw [hE]
    rw [List.length_replicate]
    rw [show pendingWindows 5121 0 = 2 from by norm_num [pendingWindows, windowSize, stepSize]]
    rw [htw]
    norm_num [List.range_succ, jsDiv]
  · exact htw

/-- Claim C3 (code bug): on a buffer of 4097 samples `totalWindows = 0`,
yet the loop still runs once and the observer is invoked with
`1 / 0 = +Infinity`, rather than never being invoked. -/
theorem c3_observer_invoked_infinity (c : Collab) :
    (analyzePitch c (List.replicate 4097 0) 44100).events = [.posInf] ∧
    totalWindows 4097 = 0 := by
  have htw : totalWindows 4097 = 0 := by
    norm_num [totalWindows, windowSize, stepSize]
  constructor
  · obtain ⟨_, hE, _⟩ := analyzePitch_spec c (List.replicate 4097 0) 44100
    rw [hE]
    rw [List.length_replicate]
    rw [show pendingWindows 4097 0 = 1 from by norm_num [pendingWindows, windowSize, stepSize]]
    rw [htw]
    norm_num [List.range_succ, jsDiv]
  · exact htw

/-- Counterexample to claim C4 as stated: on a buffer of 5121 samples
the pipeline analyses 2 windows, whereas
`floor((length - windowSize) / stepSize) = 1`. -/
theorem c4_counterexample :
    (analyzePitch stubCollab (List.replicate 5121 0) 44100).processedWindows = 2 ∧
    totalWindows 5121 = 1 := by
  constructor
  · obtain ⟨hP, _, _⟩ := analyzePitch_spec stubCollab (List.replicate 5121 0) 44100
    rw [hP, List.length_replicate]
    norm_num [pendingWindows, windowSize, stepSize]
  · norm_num [totalWindows, windowSize, stepSize]

/-- Claim C4 (amended): the pipeline analyses exactly one window per
offset `0, stepSize, 2·stepSize, …` for every offset with
`offset + windowSize < length` (strictly), and the number of windows
analysed is `ceil((length - windowSize) / stepSize)` when
`length > windowSize` and 0 otherwise — in truncated ℕ arithmetic,
`(length - windowSize + (stepSize - 1)) / stepSize`. -/
theorem c4_window_count (c : Collab) (data : List ℚ) (sr : ℚ) :
    (analyzePitch c data sr).offsets
        = (List.range ((data.length - windowSize + (stepSize - 1)) / stepSize)).map
            (fun k => stepSize * k) ∧
    (analyzePitch c data sr).processedWindows
        = (data.length - windowSize + (stepSize - 1)) / stepSize ∧
    (∀ o, o ∈ (analyzePitch c data sr).offsets ↔
      ∃ k, o = stepSize * k ∧ (o : ℤ) + (windowSize : ℤ) < (data.length : ℤ)) := by
  obtain ⟨hP, _, hO⟩ := analyzePitch_spec c data sr
  have hpend : pendingWindows data.length 0
      = (data.length - windowSize + (stepSize - 1)) / stepSize := by
    simp [pendingWindows]
  refine ⟨hpend ▸ hO, hpend ▸ hP, fun o => ?_⟩
  rw [hO]
  simp only [List.mem_map, List.mem_range]
  constructor
  · rintro ⟨k, hk, rfl⟩
    refine ⟨k, rfl, ?_⟩
    simp only [pendingWindows, windowSize, stepSize] at *
    push_cast
    omega
  · rintro ⟨k, rfl, hlt⟩
    refine ⟨k, ?_, rfl⟩
    simp only [pendingWindows, windowSize, stepSize] at *
    push_cast at hlt
    omega

/-- Witness for C4 (amended) at the concrete input of the
counterexample: the two analysed offsets are 0 and 1024. -/
theorem c4_witness :
    (analyzePitch stubCollab (List.replicate 5121 0) 44100).offsets = [0, 1024] ∧
    (analyzePitch stubCollab (List.replicate 5121 0) 44100).processedWindows = 2 := by
  obtain ⟨h1, h2, _⟩ := c4_window_count stubCollab (List.replicate 5121 0) 44100
  rw [h1, h2, List.length_replicate]
  constructor
  · rw [show (5121 - windowSize + (stepSize - 1)) / stepSize = 2 from by
      norm_num [windowSize, stepSize]]
    norm_num [List.range_succ, stepSize]
  · norm_num [windowSize, stepSize]

end Tune
